import Mathlib

/-!
Verification of the file-selection and artifact-generation pipeline of the
GitHub Music Generator repository.

Strings from the JavaScript source are modelled as `List Char`; the
JavaScript string methods used by the code (`includes`, `lastIndexOf`,
`substring`, `trim`, `toLowerCase`, regex extension tests) are embedded as
executable functions on `List Char` below.  Asynchronous calls to the two
external services (GitHub, DeepSeek) are modelled by passing the outcome of
the call (a parsed value, or `none` / `Except.error` for a thrown error) as
an explicit argument; the functions of interest are the pure post-processing
of those outcomes, translated directly from the source.
-/

namespace CodeToMusic

/-- JavaScript strings, modelled as lists of characters. -/
abbrev Str := List Char

/-- `hay.includes(needle)` of JavaScript: substring containment. -/
def jsIncludes : Str → Str → Bool
  | [], needle => needle.isEmpty
  | c :: t, needle => needle.isPrefixOf (c :: t) || jsIncludes t needle

/-- `s.toLowerCase()` of JavaScript (ASCII-faithful). -/
def jsToLower (s : Str) : Str := s.map Char.toLower

/-- Characters stripped by JavaScript `String.prototype.trim`. -/
def isJsWhitespace (c : Char) : Bool :=
  c = ' ' || c = '\t' || c = '\n' || c = '\r' ||
  c = '\x0b' || c = '\x0c' || c = '\u00A0' || c = '\uFEFF'

/-- `s.trim()` of JavaScript: strip whitespace from both ends. -/
def jsTrim (s : Str) : Str :=
  ((s.dropWhile isJsWhitespace).reverse.dropWhile isJsWhitespace).reverse

/--
Index of the last character satisfying `p`, or `none`.
`lastIdxWhere (· = c) s` models JavaScript `s.lastIndexOf(c)` with `none`
standing for the sentinel `-1`.
-/
def lastIdxWhere (p : Char → Bool) : Str → Option Nat
  | [] => none
  | c :: cs =>
    match lastIdxWhere p cs with
    | some i => some (i + 1)
    | none => if p c then some 0 else none

/-- Sentence terminators searched by `truncateToCharLimit`. -/
def isSentenceEnd (c : Char) : Bool := c = '.' || c = '!' || c = '?'

/-- The ellipsis appended by the truncation routine. -/
def ellipsis : Str := ['.', '.', '.']

/--
Sentence-boundary tier of `truncateToCharLimit` (deepseekService.js):
`Math.max` of the three `lastIndexOf` calls is the last index of any
terminator; the JavaScript float comparison `lastSentenceEnd > maxChars * 0.8`
is the integer comparison `5 * i > 4 * maxChars` (both sides exact for all
realistic sizes), and the cut is `truncated.substring(0, lastSentenceEnd + 1)`.
-/
def sentenceCut (truncated : Str) (maxChars : Nat) : Option Str :=
  match lastIdxWhere isSentenceEnd truncated with
  | some i => if 5 * i > 4 * maxChars then some (truncated.take (i + 1)) else none
  | none => none

/--
Word-boundary tier of `truncateToCharLimit`: `lastSpace > maxChars * 0.9` is
the integer comparison `10 * j > 9 * maxChars`, and the cut is
`truncated.substring(0, lastSpace) + '...'`.
-/
def spaceCut (truncated : Str) (maxChars : Nat) : Option Str :=
  match lastIdxWhere (fun c => c = ' ') truncated with
  | some j => if 10 * j > 9 * maxChars then some (truncated.take j ++ ellipsis) else none
  | none => none

/--
`truncateToCharLimit(text, maxChars)` of deepseekService.js: identity on
short inputs, otherwise the three-tier boundary-aware truncation
(sentence terminator past `0.8·maxChars`, else last space past
`0.9·maxChars` plus ellipsis, else hard cut at `maxChars - 3` plus
ellipsis; `substring` clamps a negative end to `0` exactly as `Nat`
subtraction does).
-/
def truncateToCharLimit (text : Str) (maxChars : Nat) : Str :=
  if text.length ≤ maxChars then text
  else
    let truncated := text.take maxChars
    match sentenceCut truncated maxChars with
    | some r => r
    | none =>
      match spaceCut truncated maxChars with
      | some r => r
      | none => truncated.take (maxChars - 3) ++ ellipsis

/--
`generateMusicPrompt` of the latest DeepSeekService variant
(src/unnamed/part_001, the variant with the canonical 2000-character prompt
ceiling): the generation-service reply is truncated with ceiling 2000.  The
reply is the only input the returned artifact depends on, so it is the
function's argument here.
-/
def generateMusicPrompt (response : Str) : Str :=
  truncateToCharLimit response 2000

/--
`generateMusicPrompt` of the older DeepSeekService variant
(src/src/services/deepseekService.js), which truncates the reply with the
earlier 1000-character ceiling.
-/
def generateMusicPromptLegacy (response : Str) : Str :=
  truncateToCharLimit response 1000

/-- `generateLyrics` post-processing: the reply is truncated with ceiling 3000. -/
def generateLyricsTruncation (response : Str) : Str :=
  truncateToCharLimit response 3000

/-- The fixed nine-style enumeration of deepseekService.js. -/
def validStyles : List Str :=
  (["electronic", "rock", "hardrock", "heavy-metal", "pop", "jazz",
    "classical", "hip-hop", "ambient"] : List String).map String.toList

/--
`determineBestMusicStyle` of deepseekService.js, as a function of the
generation-service outcome: `none` models the `catch` branch (the call threw),
`some response` the reply text.  The reply is trimmed and lowercased, accepted
verbatim when it is exactly a valid style, otherwise the first valid style
occurring as a substring is taken, otherwise the default `electronic`.
-/
def determineBestMusicStyle (ai : Option Str) : Str :=
  match ai with
  | none => "electronic".toList
  | some response =>
    let cleanResponse := jsToLower (jsTrim response)
    if cleanResponse ∈ validStyles then cleanResponse
    else
      match validStyles.find? (fun style => jsIncludes cleanResponse style) with
      | some style => style
      | none => "electronic".toList

/-- A file entry of the recursive listing (githubScanner.js). -/
structure FileEntry where
  name : Str
  path : Str
  size : Nat
deriving DecidableEq

/-- Rule 1 of `categorizeFile`: readme / contributing / license. -/
def docNameRule (name : Str) : Bool :=
  jsIncludes name "readme".toList || jsIncludes name "contributing".toList ||
    jsIncludes name "license".toList

/-- Rule 2 of `categorizeFile`: dependency-manifest and build-file names. -/
def manifestNameRule (name : Str) : Bool :=
  jsIncludes name "package".toList || jsIncludes name "requirements".toList ||
    jsIncludes name "cargo".toList || jsIncludes name "pom".toList ||
    jsIncludes name "build".toList || jsIncludes name "makefile".toList

/--
Rule 3 of `categorizeFile`, exactly as in the source:
`name.includes('test') || path.includes('test') || path.includes('spec')`.
Note the name is only checked for "test"; "spec" is checked on the path alone.
-/
def testRule (name path : Str) : Bool :=
  jsIncludes name "test".toList || jsIncludes path "test".toList ||
    jsIncludes path "spec".toList

/-- Rule 4 of `categorizeFile`: main / index / app. -/
def entryPointRule (name : Str) : Bool :=
  jsIncludes name "main".toList || jsIncludes name "index".toList ||
    jsIncludes name "app".toList

/-- Rule 5 of `categorizeFile`: config / setting. -/
def configNameRule (name : Str) : Bool :=
  jsIncludes name "config".toList || jsIncludes name "setting".toList

/-- `name` ends with a dot followed by one of the given extensions. -/
def hasExtIn (name : Str) (exts : List String) : Bool :=
  exts.any (fun e => List.isSuffixOf ('.' :: e.toList) name)

/-- The source-code extension set of `categorizeFile`'s rule 6. -/
def sourceExts : List String :=
  ["js", "ts", "py", "java", "cpp", "c", "go", "rs", "php", "rb", "swift",
   "kt", "scala", "cs", "dart"]

/-- The documentation extension set of rule 7. -/
def docExts : List String := ["md", "txt", "rst", "adoc"]

/-- The structured-data extension set of rule 8. -/
def dataExts : List String :=
  ["json", "yaml", "yml", "toml", "ini", "conf", "config", "xml"]

/-- The web-frontend extension set of rule 9. -/
def frontendExts : List String := ["html", "css", "scss", "sass", "less"]

/--
`categorizeFile(fileName, filePath)` of githubScanner.js: both arguments are
lowercased, then the ten rules are tried in order, first match winning.
-/
def categorizeFile (fileName filePath : Str) : Str :=
  let name := jsToLower fileName
  let path := jsToLower filePath
  if docNameRule name then "documentation".toList
  else if manifestNameRule name then "configuration".toList
  else if testRule name path then "test".toList
  else if entryPointRule name then "entry-point".toList
  else if configNameRule name then "configuration".toList
  else if hasExtIn name sourceExts then "source-code".toList
  else if hasExtIn name docExts then "documentation".toList
  else if hasExtIn name dataExts then "configuration".toList
  else if hasExtIn name frontendExts then "frontend".toList
  else "other".toList

/-- The seven category labels `categorizeFile` can produce. -/
def categoryLabels : List Str :=
  (["documentation", "configuration", "test", "entry-point", "source-code",
    "frontend", "other"] : List String).map String.toList

/-- `getFilePriority(fileName, filePath)` of githubScanner.js, rule order as in the source. -/
def getFilePriority (fileName filePath : Str) : Nat :=
  let name := jsToLower fileName
  let path := jsToLower filePath
  if jsIncludes name "readme".toList then 100
  else if jsIncludes name "main".toList || jsIncludes name "index".toList then 90
  else if jsIncludes name "app".toList && !jsIncludes path "test".toList then 85
  else if jsIncludes path "src".toList || jsIncludes path "lib".toList then 80
  else if jsIncludes name "package".toList || jsIncludes name "requirements".toList then 75
  else if jsIncludes name "config".toList then 70
  else if jsIncludes path "test".toList || jsIncludes name "test".toList then 10
  else if jsIncludes name "license".toList then 60
  else 50

/-- Priority of a file entry, as the sort comparator computes it. -/
def getFilePriorityEntry (f : FileEntry) : Nat := getFilePriority f.name f.path

/--
The ordering realised by `files.sort((a, b) => bPriority - aPriority)`:
`a` may come before `b` iff `b`'s priority does not exceed `a`'s.
-/
def priorityGE (a b : FileEntry) : Prop :=
  getFilePriorityEntry b ≤ getFilePriorityEntry a

instance : DecidableRel priorityGE := fun _ _ => Nat.decLe _ _

instance : IsTotal FileEntry priorityGE :=
  ⟨fun a b => Nat.le_total (getFilePriorityEntry b) (getFilePriorityEntry a)⟩

instance : IsTrans FileEntry priorityGE :=
  ⟨fun _ _ _ hab hbc => Nat.le_trans hbc hab⟩

/--
`fallbackFileSelection(files)` of githubScanner.js:
`files.sort(comparator).slice(0, 12)`.  `Array.prototype.sort` is a stable
sort (guaranteed since ES2019), modelled by the stable `List.insertionSort`
with the comparator's ordering; the sorted-stable permutation it computes is
unique, so any stable sort yields the same list.
-/
def fallbackFileSelection (files : List FileEntry) : List FileEntry :=
  (files.insertionSort priorityGE).take 12

/--
The contents of the caller's array after `fallbackFileSelection` returns:
`Array.prototype.sort` sorts in place, so the input array holds the sorted
sequence afterwards.
-/
def fallbackFileSelectionPost (files : List FileEntry) : List FileEntry :=
  files.insertionSort priorityGE

/--
`selectRelevantFiles(files, repoInfo)` of githubScanner.js, as a function of
the AI-selection outcome: `some selectedPaths` models a successful
`generateJSONResponse` + `parseJSONResponse` returning an array of path
strings, `none` any thrown error (the `catch` branch).  On success the file
list is filtered to the entries whose path occurs among the selected paths;
on failure the heuristic fallback runs.
-/
def selectRelevantFiles (files : List FileEntry) (ai : Option (List Str)) : List FileEntry :=
  match ai with
  | some selectedPaths => files.filter (fun file => selectedPaths.contains file.path)
  | none => fallbackFileSelection files

/-- Repository metadata fields consumed by `fallbackAnalysis`. -/
structure RepoInfo where
  description : Option Str
  language : Option Str
deriving DecidableEq

/-- A fetched file as `analyzeRepositoryWithAI` sees it (only the category is used by the fallback). -/
structure FileContent where
  type : Str
deriving DecidableEq

/--
The analysis object as JavaScript sees it: a parsed JSON value in which any
of the ten §3 fields may be absent (`none` models a missing / null field).
-/
structure AnalysisResult where
  purpose : Option Str
  themes : Option (List Str)
  emotions : Option (List Str)
  technicalConcepts : Option (List Str)
  musicalMetaphors : Option (List Str)
  keyFeatures : Option (List Str)
  innovationLevel : Option Str
  complexity : Option Str
  userImpact : Option Str
  artisticInterpretation : Option Str
deriving DecidableEq

/-- JavaScript `x || d` on an optional string: absent and empty are falsy. -/
def jsOrStr (v : Option Str) (d : Str) : Str :=
  match v with
  | some s => if s.isEmpty then d else s
  | none => d

/-- `fallbackAnalysis(repoInfo, fileContents)` of githubScanner.js. -/
def fallbackAnalysis (repoInfo : RepoInfo) (fileContents : List FileContent) : AnalysisResult :=
  let sourceFiles := fileContents.filter (fun f => f.type == "source-code".toList)
  let docFiles := fileContents.filter (fun f => f.type == "documentation".toList)
  { purpose := some (jsOrStr repoInfo.description
      ("A ".toList ++ jsOrStr repoInfo.language "software".toList ++ " repository".toList))
    themes := some (["technology", "innovation", "development"].map String.toList)
    emotions := some (["focused", "analytical", "creative"].map String.toList)
    technicalConcepts := some (["programming", "software-development"].map String.toList)
    musicalMetaphors := some (["rhythm", "structure", "harmony"].map String.toList)
    keyFeatures := some (["code-organization", "problem-solving"].map String.toList)
    innovationLevel := some "medium".toList
    complexity := some (if sourceFiles.length > 10 then "complex".toList else "moderate".toList)
    userImpact := some "Provides tools or solutions for developers".toList
    artisticInterpretation :=
      some "A structured approach to solving technical challenges".toList }

/--
`analyzeRepositoryWithAI(repoInfo, fileContents)` of githubScanner.js, as a
function of the AI outcome: on a successful call and parse
(`some parsed`) the parsed object is returned verbatim — the source performs
no shape validation — and on any error (`none`) the deterministic fallback
fires.
-/
def analyzeRepositoryWithAI (ai : Option AnalysisResult) (repoInfo : RepoInfo)
    (fileContents : List FileContent) : AnalysisResult :=
  match ai with
  | some parsed => parsed
  | none => fallbackAnalysis repoInfo fileContents

/-- All ten §3 fields of an analysis object are present. -/
def isFullyPopulated (a : AnalysisResult) : Bool :=
  a.purpose.isSome && a.themes.isSome && a.emotions.isSome &&
    a.technicalConcepts.isSome && a.musicalMetaphors.isSome &&
    a.keyFeatures.isSome && a.innovationLevel.isSome && a.complexity.isSome &&
    a.userImpact.isSome && a.artisticInterpretation.isSome

/-- The multi-style batch result: `{style, lyrics}` pairs plus failure reasons. -/
structure MultiStyleResult where
  lyrics : List (Str × Str)
  errors : List Str
deriving DecidableEq

/--
The lyric fan-out of `generateMultipleStyles` (musicGenerator.js):
`Promise.allSettled` over one `generateLyrics` call per requested style,
the fulfilled outcomes kept as `{style, lyrics}` pairs in request order and
the rejected reasons kept in a parallel failures list.  `outcome style`
models how the call for that style settles.
-/
def generateMultipleStyles (styles : List Str) (outcome : Str → Except Str Str) :
    MultiStyleResult :=
  let lyricsResults := styles.map (fun style => (style, outcome style))
  { lyrics := lyricsResults.filterMap (fun r =>
      match r.2 with
      | .ok l => some (r.1, l)
      | .error _ => none)
    errors := lyricsResults.filterMap (fun r =>
      match r.2 with
      | .error e => some e
      | .ok _ => none) }

/-- The 16 distinct files used to exercise the superset-response branch of the selection pipeline. -/
def c3Files : List FileEntry :=
  (List.range 16).map (fun i =>
    { name := List.replicate (i + 1) 'z', path := List.replicate (i + 1) 'z', size := 0 })

/-- The paths of `c3Files` (so the AI response is a superset of the list's paths). -/
def c3Paths : List Str := (List.range 16).map (fun i => List.replicate (i + 1) 'z')

/-! ## Helper lemmas -/

theorem lastIdxWhere_lt_length {p : Char → Bool} {l : Str} {i : Nat}
    (h : lastIdxWhere p l = some i) : i < l.length := by
  induction l generalizing i with
  | nil => simp [lastIdxWhere] at h
  | cons c cs ih =>
    simp only [lastIdxWhere] at h
    split at h
    · rename_i j hj
      injection h with h
      subst h
      have := ih hj
      simp only [List.length_cons]
      omega
    · split at h
      · injection h with h
        subst h
        simp
      · cases h

theorem truncate_eq_of_le {text : Str} {maxChars : Nat} (h : text.length ≤ maxChars) :
    truncateToCharLimit text maxChars = text := by
  unfold truncateToCharLimit
  rw [if_pos h]

theorem sentenceCut_some_length_le {truncated : Str} {maxChars : Nat} {r : Str}
    (h : sentenceCut truncated maxChars = some r) : r.length ≤ truncated.length := by
  unfold sentenceCut at h
  split at h
  · split at h
    · injection h with h
      subst h
      rw [List.length_take]
      exact Nat.min_le_right _ _
    · cases h
  · cases h

theorem spaceCut_some_length_le {truncated : Str} {maxChars : Nat} {r : Str}
    (h : spaceCut truncated maxChars = some r) : r.length ≤ truncated.length + 2 := by
  unfold spaceCut at h
  split at h
  · rename_i j hj
    split at h
    · injection h with h
      subst h
      have hjl := lastIdxWhere_lt_length hj
      rw [List.length_append, List.length_take, Nat.min_eq_left (Nat.le_of_lt hjl)]
      have he : ellipsis.length = 3 := rfl
      rw [he]
      omega
    · cases h
  · cases h

theorem truncate_length_bound (text : Str) (maxChars : Nat) (h1 : 1 ≤ maxChars) :
    (truncateToCharLimit text maxChars).length ≤ maxChars + 2 := by
  unfold truncateToCharLimit
  by_cases hle : text.length ≤ maxChars
  · rw [if_pos hle]
    omega
  · rw [if_neg hle]
    have htl : (text.take maxChars).length = maxChars := by
      rw [List.length_take, Nat.min_eq_left (by omega)]
    rcases hs : sentenceCut (text.take maxChars) maxChars with _ | r
    · rcases hw : spaceCut (text.take maxChars) maxChars with _ | r
      · simp only [hs, hw]
        rw [List.length_append, List.length_take, htl,
          Nat.min_eq_left (Nat.sub_le _ _)]
        have he : ellipsis.length = 3 := rfl
        rw [he]
        omega
      · simp only [hs, hw]
        have hb := spaceCut_some_length_le hw
        rw [htl] at hb
        exact hb
    · simp only [hs]
      have hb := sentenceCut_some_length_le hs
      rw [htl] at hb
      omega

theorem filter_orderedInsert_priority (x : FileEntry) (k : Nat) (l : List FileEntry) :
    (l.orderedInsert priorityGE x).filter (fun f => getFilePriorityEntry f == k)
      = if getFilePriorityEntry x == k
        then x :: l.filter (fun f => getFilePriorityEntry f == k)
        else l.filter (fun f => getFilePriorityEntry f == k) := by
  induction l with
  | nil =>
    by_cases hx : getFilePriorityEntry x = k <;>
      simp [List.orderedInsert, List.filter_cons, hx]
  | cons b t ih =>
    by_cases hxb : priorityGE x b
    · rw [List.orderedInsert, if_pos hxb]
      by_cases hx : getFilePriorityEntry x = k <;>
        simp [List.filter_cons, hx]
    · have hlt : getFilePriorityEntry x < getFilePriorityEntry b :=
        Nat.lt_of_not_le hxb
      rw [List.orderedInsert, if_neg hxb, List.filter_cons, ih]
      by_cases hx : getFilePriorityEntry x = k
      · have hb : getFilePriorityEntry b ≠ k := by omega
        simp [List.filter_cons, hx, hb]
      · by_cases hb : getFilePriorityEntry b = k <;>
          simp [List.filter_cons, hx, hb]

theorem filter_insertionSort_priority (k : Nat) (l : List FileEntry) :
    (l.insertionSort priorityGE).filter (fun f => getFilePriorityEntry f == k)
      = l.filter (fun f => getFilePriorityEntry f == k) := by
  induction l with
  | nil => rfl
  | cons x t ih =>
    rw [List.insertionSort, filter_orderedInsert_priority, ih, List.filter_cons]

theorem multiStylePartition_length (l : List (Str × Except Str Str)) :
    (l.filterMap (fun r =>
        match r.2 with
        | .ok x => some (r.1, x)
        | .error _ => none)).length
      + (l.filterMap (fun r =>
          match r.2 with
          | .error e => some e
          | .ok _ => none)).length
      = l.length := by
  induction l with
  | nil => rfl
  | cons a t ih =>
    rcases a with ⟨s, o⟩
    cases o <;> simp [List.filterMap_cons] <;> omega

theorem lastIdxWhere_append_some {p : Char → Bool} {l2 : Str} {i : Nat}
    (h : lastIdxWhere p l2 = some i) (l1 : Str) :
    lastIdxWhere p (l1 ++ l2) = some (l1.length + i) := by
  induction l1 with
  | nil => simpa using h
  | cons c t ih =>
    rw [List.cons_append]
    simp only [lastIdxWhere, ih, List.length_cons]
    exact congrArg some (by omega)

theorem lastIdxWhere_append_none {p : Char → Bool} {l2 : Str}
    (h : lastIdxWhere p l2 = none) (l1 : Str) :
    lastIdxWhere p (l1 ++ l2) = lastIdxWhere p l1 := by
  induction l1 with
  | nil => simpa using h
  | cons c t ih =>
    rw [List.cons_append]
    simp only [lastIdxWhere, ih]

theorem lastIdxWhere_replicate_none {p : Char → Bool} {c : Char} (h : p c = false)
    (n : Nat) : lastIdxWhere p (List.replicate n c) = none := by
  induction n with
  | zero => rfl
  | succ m ih =>
    rw [List.replicate_succ]
    simp [lastIdxWhere, ih, h]

theorem truncate_eq_of_cuts {text : Str} {maxChars : Nat} {r : Str}
    (hlong : maxChars < text.length)
    (hs : sentenceCut (text.take maxChars) maxChars = none)
    (hw : spaceCut (text.take maxChars) maxChars = some r) :
    truncateToCharLimit text maxChars = r := by
  unfold truncateToCharLimit
  rw [if_neg (by omega)]
  simp only [hs, hw]

theorem mem_lyrics_iff (outcome : Str → Except Str Str) (s l : Str) :
    ∀ styles : List Str,
      ((s, l) ∈ (generateMultipleStyles styles outcome).lyrics
        ↔ s ∈ styles ∧ outcome s = .ok l) := by
  intro styles
  induction styles with
  | nil => simp [generateMultipleStyles]
  | cons st t ih =>
    simp only [generateMultipleStyles, List.map_cons, List.filterMap_cons] at ih ⊢
    cases ho : outcome st with
    | ok lv =>
      simp only [List.mem_cons, ih, Prod.mk.injEq]
      constructor
      · rintro (⟨rfl, rfl⟩ | ⟨hs, hos⟩)
        · exact ⟨Or.inl rfl, ho⟩
        · exact ⟨Or.inr hs, hos⟩
      · rintro ⟨rfl | hs, hos⟩
        · rw [hos] at ho
          injection ho with h
          exact Or.inl ⟨rfl, h⟩
        · exact Or.inr ⟨hs, hos⟩
    | error e =>
      simp only [ih, List.mem_cons]
      constructor
      · rintro ⟨hs, hos⟩
        exact ⟨Or.inr hs, hos⟩
      · rintro ⟨rfl | hs, hos⟩
        · rw [hos] at ho
          exact Except.noConfusion ho
        · exact ⟨hs, hos⟩

theorem mem_errors_iff (outcome : Str → Except Str Str) (e : Str) :
    ∀ styles : List Str,
      (e ∈ (generateMultipleStyles styles outcome).errors
        ↔ ∃ s ∈ styles, outcome s = .error e) := by
  intro styles
  induction styles with
  | nil => simp [generateMultipleStyles]
  | cons st t ih =>
    simp only [generateMultipleStyles, List.map_cons, List.filterMap_cons] at ih ⊢
    cases ho : outcome st with
    | ok lv =>
      simp only [ih]
      constructor
      · rintro ⟨s, hs, hos⟩
        exact ⟨s, List.mem_cons_of_mem _ hs, hos⟩
      · rintro ⟨s, hs, hos⟩
        rcases List.mem_cons.mp hs with rfl | hs'
        · rw [hos] at ho
          exact Except.noConfusion ho
        · exact ⟨s, hs', hos⟩
    | error ev =>
      simp only [List.mem_cons, ih]
      constructor
      · rintro (rfl | ⟨s, hs, hos⟩)
        · exact ⟨st, Or.inl rfl, ho⟩
        · exact ⟨s, Or.inr hs, hos⟩
      · rintro ⟨s, rfl | hs, hos⟩
        · rw [hos] at ho
          injection ho with h
          exact Or.inl h
        · exact Or.inr ⟨s, hs, hos⟩

/-! ## Claims -/

/--
Claim C1, counterexample: with `maxChars = 30` and a 31-character text whose
first 30 characters end in a space at index 29 and contain no sentence
terminator, the word-boundary branch of `truncateToCharLimit` fires and
returns the 29 leading characters plus a 3-character ellipsis — 32 characters,
exceeding the limit of 30.
-/
theorem c1_counterexample :
    30 < (truncateToCharLimit (List.replicate 29 'a' ++ [' ', 'b']) 30).length := by
  decide

/--
Claim C1 (amended): for every text and every positive character limit,
`truncateToCharLimit text maxChars` has length at most `maxChars + 2`: the
word-boundary branch can cut at a space at index up to `maxChars - 1` and
then append a 3-character ellipsis, so the stated limit `maxChars` can be
exceeded by up to 2 (the identity, sentence-boundary and hard-cut branches
do respect `maxChars` itself).
-/
theorem c1_truncate_length_le (text : Str) (maxChars : Nat) (h : 1 ≤ maxChars) :
    (truncateToCharLimit text maxChars).length ≤ maxChars + 2 :=
  truncate_length_bound text maxChars h

/-- Witness for C1 at a concrete input. -/
theorem c1_truncate_length_le_witness :
    (truncateToCharLimit "abcdef".toList 3).length ≤ 5 :=
  c1_truncate_length_le "abcdef".toList 3 (by decide)

/--
Claim C2, counterexample: a generation-service reply of 2001 characters whose
first 2000 characters end in a space at index 1999 and contain no sentence
terminator makes `generateMusicPrompt` (canonical 2000-ceiling variant)
return 2002 characters, exceeding the claimed 2000-character bound.
-/
theorem c2_counterexample :
    2000 < (generateMusicPrompt (List.replicate 1999 'a' ++ [' ', 'b'])).length := by
  have hrep : (List.replicate 1999 'a').length = 1999 := by
    rw [List.length_replicate]
  have hse1 : lastIdxWhere isSentenceEnd ([' '] : Str) = none := rfl
  have hsp1 : lastIdxWhere (fun c => c = ' ') ([' '] : Str) = some 0 := by decide
  have hle2000 : (List.replicate 1999 'a').length ≤ 2000 := by
    rw [hrep]
    omega
  have htake : (List.replicate 1999 'a' ++ ([' ', 'b'] : Str)).take 2000
      = List.replicate 1999 'a' ++ [' '] := by
    rw [List.take_append_eq_append_take, List.take_of_length_le hle2000, hrep]
    have h1 : List.take (2000 - 1999) ([' ', 'b'] : Str) = [' '] := rfl
    rw [h1]
  have hlen : (List.replicate 1999 'a' ++ ([' ', 'b'] : Str)).length = 2001 := by
    rw [List.length_append, hrep]
    rfl
  have hs : sentenceCut (List.replicate 1999 'a' ++ [' ']) 2000 = none := by
    unfold sentenceCut
    rw [lastIdxWhere_append_none hse1, lastIdxWhere_replicate_none (by decide)]
  have htk : (List.replicate 1999 'a' ++ ([' '] : Str)).take (1999 + 0)
      = List.replicate 1999 'a' := by
    rw [Nat.add_zero, List.take_append_eq_append_take,
      List.take_of_length_le (le_of_eq hrep), hrep, Nat.sub_self, List.take_zero,
      List.append_nil]
  have hw : spaceCut (List.replicate 1999 'a' ++ [' ']) 2000
      = some (List.replicate 1999 'a' ++ ellipsis) := by
    unfold spaceCut
    rw [lastIdxWhere_append_some hsp1, hrep]
    show (if 10 * (1999 + 0) > 9 * 2000
        then some ((List.replicate 1999 'a' ++ [' ']).take (1999 + 0) ++ ellipsis)
        else none) = _
    rw [if_pos (by omega), htk]
  have hmain : truncateToCharLimit (List.replicate 1999 'a' ++ [' ', 'b']) 2000
      = List.replicate 1999 'a' ++ ellipsis := by
    refine truncate_eq_of_cuts (by rw [hlen]; omega) ?_ ?_
    · rw [htake]
      exact hs
    · rw [htake]
      exact hw
  unfold generateMusicPrompt
  rw [hmain, List.length_append, hrep]
  have he : ellipsis.length = 3 := rfl
  rw [he]
  omega

/--
Claim C2 (amended): the prompt artifact of the canonical `generateMusicPrompt`
variant is the generation-service reply truncated with ceiling 2000, which
bounds its length by 2002 (the boundary-aware truncation can overshoot its
ceiling by the 2 characters shown in the counterexample, never more); the
older service variant truncates with ceiling 1000 and is bounded by 1002.
-/
theorem c2_prompt_length_le (response : Str) :
    (generateMusicPrompt response).length ≤ 2002
    ∧ (generateMusicPromptLegacy response).length ≤ 1002 :=
  ⟨truncate_length_bound response 2000 (by omega),
   truncate_length_bound response 1000 (by omega)⟩

/-- Witness for C2 at a concrete input. -/
theorem c2_prompt_length_le_witness :
    (generateMusicPrompt "hello".toList).length ≤ 2002 :=
  (c2_prompt_length_le "hello".toList).1

/--
Claim C3, counterexample: when the AI selection succeeds with a valid
response whose path set is (a superset of) the 16 distinct paths of a
16-file list, `selectRelevantFiles` keeps every file and returns 16 > 15
files; and when the AI succeeds with a valid response matching no path of a
1-file list, it returns 0 files although 1 < 10 files exist.
-/
theorem c3_counterexample :
    (∀ f ∈ c3Files, c3Paths.contains f.path = true)
    ∧ 15 < (selectRelevantFiles c3Files (some c3Paths)).length
    ∧ (selectRelevantFiles [⟨"a".toList, "a".toList, 0⟩] (some [])).length < 1 := by
  decide

/--
Claim C3 (amended): when the AI selection fails and the fallback fires, the
pipeline returns `min 12 total` files — in particular, all of them (never
fewer than exist) when the total is below 10; when the AI selection succeeds
with a valid response whose path set is a superset of the file list's paths,
the pipeline returns exactly the whole file list (hence at most 15 only when
at most 15 files exist).
-/
theorem c3_selection_pipeline_bounds (files : List FileEntry) (paths : List Str) :
    (files.length < 10 → (selectRelevantFiles files none).length = files.length)
    ∧ ((∀ f ∈ files, paths.contains f.path = true) →
        selectRelevantFiles files (some paths) = files) := by
  constructor
  · intro h
    show (fallbackFileSelection files).length = files.length
    rw [fallbackFileSelection, List.length_take,
      (List.perm_insertionSort priorityGE files).length_eq]
    omega
  · intro h
    show files.filter _ = files
    exact List.filter_eq_self.mpr h

/-- Witness for C3 at concrete inputs, discharging both hypotheses. -/
theorem c3_selection_pipeline_bounds_witness :
    (selectRelevantFiles (c3Files.take 3) none).length = (c3Files.take 3).length
    ∧ selectRelevantFiles [⟨"a".toList, "a".toList, 0⟩] (some ["a".toList])
        = [⟨"a".toList, "a".toList, 0⟩] :=
  ⟨(c3_selection_pipeline_bounds (c3Files.take 3) []).1 (by decide),
   (c3_selection_pipeline_bounds [⟨"a".toList, "a".toList, 0⟩] ["a".toList]).2 (by decide)⟩

/--
Claim C4, counterexample: for the pair `(name, path) = ("spec", "x")` no
earlier rule matches and the name contains "spec", so the claimed rule 3
("name or path contains test or spec") demands category `test`; the code's
rule 3 checks the name only for "test", so `categorizeFile` returns `other`.
-/
theorem c4_counterexample :
    categorizeFile "spec".toList "x".toList = "other".toList
    ∧ jsIncludes (jsToLower "spec".toList) "spec".toList = true
    ∧ docNameRule (jsToLower "spec".toList) = false
    ∧ manifestNameRule (jsToLower "spec".toList) = false := by
  decide

/--
Claim C4 (amended): `categorizeFile` is a total deterministic function into
the 7 fixed categories; the precedence is respected with rule 3 as
implemented — name contains "test", or path contains "test" or "spec" (the
name alone is not checked for "spec"; this coincides with the spec's rule 3
whenever the path contains the name, as it does for repository listings) —
rule 1 takes precedence, and `readme.test.md` in a `test/` path is
`documentation`.
-/
theorem c4_categorize_properties (fileName filePath : Str) :
    categorizeFile fileName filePath ∈ categoryLabels
    ∧ (docNameRule (jsToLower fileName) = true →
        categorizeFile fileName filePath = "documentation".toList)
    ∧ (docNameRule (jsToLower fileName) = false →
        manifestNameRule (jsToLower fileName) = false →
        testRule (jsToLower fileName) (jsToLower filePath) = true →
        categorizeFile fileName filePath = "test".toList)
    ∧ categorizeFile "readme.test.md".toList "test/readme.test.md".toList
        = "documentation".toList := by
  refine ⟨?_, ?_, ?_, by decide⟩
  · simp only [categorizeFile]
    split_ifs <;> decide
  · intro h1
    simp [categorizeFile, h1]
  · intro h1 h2 h3
    simp [categorizeFile, h1, h2, h3]

/-- Witness for C4 at a concrete input, discharging the rule-3 hypotheses. -/
theorem c4_categorize_properties_witness :
    categorizeFile "x".toList "spec/x".toList = "test".toList :=
  (c4_categorize_properties "x".toList "spec/x".toList).2.2.1
    (by decide) (by decide) (by decide)

/--
Claim C5 (confirmed): the fallback heuristic selection returns the first 12
entries (all when fewer exist) of the input stably sorted in descending
order of `getFilePriority`: the sorted list is a permutation of the input,
it is pairwise descending in priority, and entries of equal priority keep
their original listing order (the filter at every priority value is
unchanged).  Determinism is definitional: the embedding is a pure function,
so two runs on the same list give the same 12 files in the same order.
-/
theorem c5_fallback_sorted_stable_top12 (files : List FileEntry) :
    fallbackFileSelection files = (files.insertionSort priorityGE).take 12
    ∧ (files.insertionSort priorityGE).Perm files
    ∧ List.Sorted priorityGE (files.insertionSort priorityGE)
    ∧ ∀ k : Nat,
        (files.insertionSort priorityGE).filter (fun f => getFilePriorityEntry f == k)
          = files.filter (fun f => getFilePriorityEntry f == k) :=
  ⟨rfl, List.perm_insertionSort priorityGE files,
   List.sorted_insertionSort priorityGE files,
   fun k => filter_insertionSort_priority k files⟩

/-- Witness for C5 at a concrete input. -/
theorem c5_fallback_sorted_stable_top12_witness :
    (([⟨"readme".toList, "readme".toList, 0⟩] : List FileEntry).insertionSort
        priorityGE).Perm [⟨"readme".toList, "readme".toList, 0⟩] :=
  (c5_fallback_sorted_stable_top12 [⟨"readme".toList, "readme".toList, 0⟩]).2.1

/--
Claim C6, counterexample: when the AI call and parse succeed but the parsed
JSON object carries none of the ten §3 fields, `analyzeRepositoryWithAI`
returns it verbatim (the source performs no shape validation), so the
produced analysis is not fully populated.
-/
theorem c6_counterexample :
    isFullyPopulated (analyzeRepositoryWithAI
        (some ⟨none, none, none, none, none, none, none, none, none, none⟩)
        ⟨none, none⟩ []) = false := by
  decide

/--
Claim C6 (amended): the analysis produced by `analyzeRepositoryWithAI` is
fully populated whenever the deterministic fallback fires; when the AI call
and parse succeed, the parsed object is returned verbatim without shape
validation, so every field is present exactly when the AI reply contained it.
-/
theorem c6_analysis_population (repoInfo : RepoInfo) (fileContents : List FileContent)
    (parsed : AnalysisResult) :
    isFullyPopulated (analyzeRepositoryWithAI none repoInfo fileContents) = true
    ∧ analyzeRepositoryWithAI (some parsed) repoInfo fileContents = parsed :=
  ⟨rfl, rfl⟩

/-- Witness for C6 at a concrete input. -/
theorem c6_analysis_population_witness :
    isFullyPopulated (analyzeRepositoryWithAI none ⟨none, none⟩ []) = true :=
  (c6_analysis_population ⟨none, none⟩ []
    ⟨none, none, none, none, none, none, none, none, none, none⟩).1

/--
Claim C7 (confirmed): in auto mode, `determineBestMusicStyle` always returns
a member of the fixed 9-style enumeration — never the sentinel `auto`,
never an error — whatever the generation service does (exact style reply,
noisy reply containing a style name, unrecognizable reply, or thrown error,
the last modelled by the `none` outcome); on total failure it returns the
default style `electronic`.
-/
theorem c7_auto_style_total (ai : Option Str) :
    determineBestMusicStyle ai ∈ validStyles
    ∧ determineBestMusicStyle ai ≠ "auto".toList
    ∧ determineBestMusicStyle none = "electronic".toList := by
  have hmem : determineBestMusicStyle ai ∈ validStyles := by
    cases ai with
    | none =>
      show "electronic".toList ∈ validStyles
      decide
    | some response =>
      simp only [determineBestMusicStyle]
      by_cases h : jsToLower (jsTrim response) ∈ validStyles
      · rw [if_pos h]
        exact h
      · rw [if_neg h]
        rcases hf : validStyles.find?
            (fun style => jsIncludes (jsToLower (jsTrim response)) style) with _ | style
        · simp only [hf]
          decide
        · simp only [hf]
          exact List.mem_of_find?_eq_some hf
  have hauto : ∀ x ∈ validStyles, x ≠ "auto".toList := by decide
  exact ⟨hmem, hauto _ hmem, rfl⟩

/-- Witness for C7 at a concrete input. -/
theorem c7_auto_style_total_witness :
    determineBestMusicStyle (some "polka".toList) ∈ validStyles
    ∧ determineBestMusicStyle none = "electronic".toList :=
  ⟨(c7_auto_style_total (some "polka".toList)).1, (c7_auto_style_total none).2.2⟩

/--
Claim C8, counterexample: with `maxChars = 40`, the word-boundary branch
first yields a 42-character result ending in an ellipsis; a second
application truncates again through the sentence-boundary branch and yields
a different 40-character string, so double application differs from single
application.
-/
theorem c8_counterexample :
    truncateToCharLimit (truncateToCharLimit (List.replicate 39 'a' ++ [' ', 'b']) 40) 40
      ≠ truncateToCharLimit (List.replicate 39 'a' ++ [' ', 'b']) 40 := by
  decide

/--
Claim C8 (amended): `truncateToCharLimit` is the identity on every text of
length at most `maxChars`; and applying it twice equals applying it once
whenever the first application's result has length at most `maxChars` — the
only failure mode is the word-boundary branch exceeding the ceiling, as in
the counterexample.
-/
theorem c8_truncate_identity_idempotence (text : Str) (maxChars : Nat) :
    (text.length ≤ maxChars → truncateToCharLimit text maxChars = text)
    ∧ ((truncateToCharLimit text maxChars).length ≤ maxChars →
        truncateToCharLimit (truncateToCharLimit text maxChars) maxChars
          = truncateToCharLimit text maxChars) :=
  ⟨fun h => truncate_eq_of_le h, fun h => truncate_eq_of_le h⟩

/-- Witness for C8 at a concrete input, discharging both hypotheses. -/
theorem c8_truncate_identity_idempotence_witness :
    truncateToCharLimit "abc".toList 5 = "abc".toList
    ∧ truncateToCharLimit (truncateToCharLimit "abc".toList 5) 5
        = truncateToCharLimit "abc".toList 5 :=
  ⟨(c8_truncate_identity_idempotence "abc".toList 5).1 (by decide),
   (c8_truncate_identity_idempotence "abc".toList 5).2 (by decide)⟩

/--
Claim C9, counterexample: `Array.prototype.sort` sorts the caller's array in
place, so after `fallbackFileSelection` runs on a two-file list whose
priorities are out of order, the input array holds the two files in swapped
order — not the original order.
-/
theorem c9_counterexample :
    fallbackFileSelectionPost
        [⟨"zzz".toList, "zzz".toList, 1⟩, ⟨"readme".toList, "readme".toList, 1⟩]
      ≠ [⟨"zzz".toList, "zzz".toList, 1⟩, ⟨"readme".toList, "readme".toList, 1⟩] := by
  decide

/--
Claim C9 (amended): after the fallback heuristic selection runs, the input
list still holds exactly the same elements — the in-place sort permutes it
(so the original order is generally lost) but never adds, drops or edits an
entry, and the length is unchanged.
-/
theorem c9_fallback_permutes_input (files : List FileEntry) :
    (fallbackFileSelectionPost files).Perm files
    ∧ (fallbackFileSelectionPost files).length = files.length :=
  ⟨List.perm_insertionSort priorityGE files,
   (List.perm_insertionSort priorityGE files).length_eq⟩

/-- Witness for C9 at a concrete input. -/
theorem c9_fallback_permutes_input_witness :
    (fallbackFileSelectionPost [⟨"a".toList, "b".toList, 0⟩]).length
      = ([⟨"a".toList, "b".toList, 0⟩] : List FileEntry).length :=
  (c9_fallback_permutes_input [⟨"a".toList, "b".toList, 0⟩]).2

/--
Claim C10 (confirmed): in `generateMultipleStyles`, the settled outcomes of
the per-style lyric calls are partitioned: the number of successes plus the
number of failures equals the number of requested styles, a `{style, lyrics}`
pair is among the successes exactly when that style was requested and its
call succeeded with those lyrics, and a reason is among the failures exactly
when some requested style's call failed with it.  The batch result is a total
function of the settled outcomes: one style's failure never fails the batch.
-/
theorem c10_multi_style_partition (styles : List Str) (outcome : Str → Except Str Str) :
    (generateMultipleStyles styles outcome).lyrics.length
        + (generateMultipleStyles styles outcome).errors.length = styles.length
    ∧ (∀ s l, (s, l) ∈ (generateMultipleStyles styles outcome).lyrics
        ↔ s ∈ styles ∧ outcome s = .ok l)
    ∧ (∀ e, e ∈ (generateMultipleStyles styles outcome).errors
        ↔ ∃ s ∈ styles, outcome s = .error e) := by
  refine ⟨?_, fun s l => mem_lyrics_iff outcome s l styles,
    fun e => mem_errors_iff outcome e styles⟩
  have h := multiStylePartition_length
    (styles.map (fun style => (style, outcome style)))
  simpa [generateMultipleStyles] using h

/-- Witness for C10 at a concrete input. -/
theorem c10_multi_style_partition_witness :
    (generateMultipleStyles ["rock".toList] (fun _ => .ok "la".toList)).lyrics.length
        + (generateMultipleStyles ["rock".toList] (fun _ => .ok "la".toList)).errors.length
      = 1 :=
  (c10_multi_style_partition ["rock".toList] (fun _ => .ok "la".toList)).1

end CodeToMusic
